import Mathlib

/-!
Verification of the reading-list application (src/main.go, the variant with
a status column and LLM title generation).

The store is modelled as the state of the single `readings` table together
with the AUTOINCREMENT counter.  The SQL statements of the Go handlers are
single-row operations translated directly: SELECT becomes the row list,
INSERT appends a row carrying the next id, DELETE filters by id.  The HTTP
layer is modelled by the pair of a response status code and the resulting
store state; form and query parameters are explicit arguments.  Network
interaction of the title generator is modelled by an environment recording
endpoint availability and the outcome of each attempt of the retry loop.
-/

namespace ReadingList

/-- Statuses are strings in the Go source (type ReadingStatus string). -/
abbrev ReadingStatus := String

def Unread : ReadingStatus := "unread"

def ToBeRead : ReadingStatus := "to-be-read"

def Halfway : ReadingStatus := "halfway"

def Rd : ReadingStatus := "read"

/-- One row of the `readings` table.  The `status` column of the schema is
nullable TEXT with no default, hence `Option`.  The Go struct field `Type`
is rendered `rtype`. -/
structure Reading where
  id : Nat
  url : String
  title : String
  description : String
  source : String
  rtype : String
  status : Option ReadingStatus
  addDate : String
  addTime : String
deriving DecidableEq, Repr

/-- The `readings` table plus the AUTOINCREMENT counter of its primary key. -/
structure Store where
  rows : List Reading
  nextId : Nat
deriving DecidableEq, Repr

/-- One SQL INSERT into `readings`: appends a row with the next
AUTOINCREMENT id; `addDate` and `addTime` stand for the CURRENT_DATE and
CURRENT_TIME defaults of the schema. -/
def insertReading (st : Store) (url title description source rtype : String)
    (status : Option ReadingStatus) (addDate addTime : String) : Store :=
  { rows := st.rows ++
      [Reading.mk st.nextId url title description source rtype status addDate addTime],
    nextId := st.nextId + 1 }

/-- GetReadings: SELECT every row of `readings`, in insertion order. -/
def GetReadings (st : Store) : List Reading :=
  st.rows

/-- GetReadingsByStatus: SELECT ... WHERE status = ?.  A NULL status never
equals the parameter, matching SQL comparison with NULL. -/
def GetReadingsByStatus (st : Store) (status : String) : List Reading :=
  st.rows.filter (fun r => decide (r.status = some status))

/-- The seeding step of initDb: when the table is empty, two test rows are
inserted.  The INSERT lists columns (url, title, description, source, type)
only, so the `status` column receives NULL (the schema gives it no
default). -/
def initDb (st : Store) (addDate addTime : String) : Store :=
  if st.rows.length = 0 then
    insertReading
      (insertReading st "https://go.dev/doc" "Go Documentation"
        "Official Go programming language documentation" "go.dev" "article"
        none addDate addTime)
      "https://github.com/ismi-abbas/reading-list" "Reading List Project"
      "A simple reading list application built with Go" "GitHub" "article"
      none addDate addTime
  else st

/-- Outcome of one iteration of the retry loop of
generateTitleWithLlama3: the client.Do call errors, io.ReadAll errors,
json.Unmarshal errors, or a response parses with the given message
content. -/
inductive Attempt where
  | netErr
  | readErr
  | parseErr
  | ok (content : String)
deriving DecidableEq, Repr

/-- Result of running the retry loop: the returned string, the number of
attempts consumed, and the list of sleep durations (seconds) taken between
attempts. -/
structure LoopRun where
  result : String
  attemptsMade : Nat
  sleeps : List Nat
deriving DecidableEq, Repr

/-- The body of the for-loop of generateTitleWithLlama3 over the remaining
attempt outcomes.  A network error retries after a 2 second sleep unless it
is the last attempt; read and parse errors return the empty string at once;
non-empty parsed content is returned immediately; empty content retries
after a 2 second sleep unless it is the last attempt. -/
def runLoop : List Attempt → LoopRun
  | [] => { result := "", attemptsMade := 0, sleeps := [] }
  | a :: rest =>
    match a with
    | .netErr =>
      if rest.isEmpty then { result := "", attemptsMade := 1, sleeps := [] }
      else
        let r := runLoop rest
        { result := r.result, attemptsMade := r.attemptsMade + 1, sleeps := 2 :: r.sleeps }
    | .readErr => { result := "", attemptsMade := 1, sleeps := [] }
    | .parseErr => { result := "", attemptsMade := 1, sleeps := [] }
    | .ok content =>
      if content ≠ "" then { result := content, attemptsMade := 1, sleeps := [] }
      else if rest.isEmpty then { result := "", attemptsMade := 1, sleeps := [] }
      else
        let r := runLoop rest
        { result := r.result, attemptsMade := r.attemptsMade + 1, sleeps := 2 :: r.sleeps }

/-- maxRetries of generateTitleWithLlama3. -/
def maxRetries : Nat := 3

/-- Network environment of one generateTitleWithLlama3 call: whether
getAvailableURL finds a reachable endpoint, and the outcome of each
attempt. -/
structure LlamaEnv where
  available : Bool
  att : Nat → Attempt

/-- The outcomes of the maxRetries attempts of the loop, in order. -/
def attemptOutcomes (env : LlamaEnv) : List Attempt :=
  (List.range maxRetries).map env.att

/-- generateTitleWithLlama3: when no endpoint is reachable it returns the
empty string; otherwise it runs the retry loop over the attempt outcomes
and returns its result.  The string returned is independent of the content
argument, which only feeds the request payload. -/
def generateTitleWithLlama3 (env : LlamaEnv) (content : String) : String :=
  if env.available then (runLoop (attemptOutcomes env)).result else ""

/-- AddReading: reads form values, calls the title generator, rejects an
empty url with HTTP 400 before any INSERT, and otherwise inserts the row
with status forced to Unread and responds 200. -/
def AddReading (st : Store) (env : LlamaEnv) (form : String → String)
    (addDate addTime : String) : Nat × Store :=
  let url := form "url"
  let description := form "description"
  let readingType := form "type"
  let source := form "source"
  let generatedTitle := generateTitleWithLlama3 env description
  if url = "" then (400, st)
  else (200, insertReading st url generatedTitle description source readingType
    (some Unread) addDate addTime)

/-- DeleteReading: DELETE FROM readings WHERE id = ?; zero affected rows is
not an error, so the handler responds 200 regardless. -/
def DeleteReading (st : Store) (id : Nat) : Nat × Store :=
  (200, { st with rows := st.rows.filter (fun r => decide (r.id ≠ id)) })

/-- FetchReadings: the list endpoint routes status "all" and the empty
status to GetReadings, anything else to GetReadingsByStatus. -/
def FetchReadings (st : Store) (status : String) : List Reading :=
  if status = "all" ∨ status = "" then GetReadings st
  else GetReadingsByStatus st status

/-- strings.ReplaceAll specialised to the single-character patterns used by
generateTitleWithLlama3: every occurrence of `p` becomes `r`. -/
def replaceAllChar (p : Char) (r : List Char) : List Char → List Char
  | [] => []
  | c :: cs =>
    if c = p then r ++ replaceAllChar p r cs
    else c :: replaceAllChar p r cs

/-- The escaping of the content before it is spliced into the JSON payload:
backslash, double quote, newline, carriage return and tab, replaced in that
order, exactly as the five strings.ReplaceAll calls. -/
def escapeContent (content : List Char) : List Char :=
  replaceAllChar '\t' ['\\', 't']
    (replaceAllChar '\r' ['\\', 'r']
      (replaceAllChar '\n' ['\\', 'n']
        (replaceAllChar '"' ['\\', '"']
          (replaceAllChar '\\' ['\\', '\\'] content))))

/-- Per-character form of the composed escaping. -/
def escChar (c : Char) : List Char :=
  if c = '\\' then ['\\', '\\']
  else if c = '"' then ['\\', '"']
  else if c = '\n' then ['\\', 'n']
  else if c = '\r' then ['\\', 'r']
  else if c = '\t' then ['\\', 't']
  else [c]

/-- The per-character escaping mapped over a list. -/
def escapeList : List Char → List Char
  | [] => []
  | c :: cs => escChar c ++ escapeList cs

/-- Decoding of a two-character JSON escape sequence (RFC 8259), backslash
excluded form: the character after the backslash. -/
def escDecode (d : Char) : Option Char :=
  if d = '"' then some '"'
  else if d = '\\' then some '\\'
  else if d = '/' then some '/'
  else if d = 'b' then some (Char.ofNat 8)
  else if d = 'f' then some (Char.ofNat 12)
  else if d = 'n' then some '\n'
  else if d = 'r' then some '\r'
  else if d = 't' then some '\t'
  else none

/-- Value of one hexadecimal digit. -/
def hexVal (c : Char) : Option Nat :=
  if '0' ≤ c ∧ c ≤ '9' then some (c.toNat - '0'.toNat)
  else if 'a' ≤ c ∧ c ≤ 'f' then some (c.toNat - 'a'.toNat + 10)
  else if 'A' ≤ c ∧ c ≤ 'F' then some (c.toNat - 'A'.toNat + 10)
  else none

/-- Decoding of the body of a JSON string literal (the characters between
the quotes), per RFC 8259: a backslash introduces an escape sequence, an
unescaped control character below 0x20 or an unescaped quote or backslash
is malformed. -/
def jsonUnescape : List Char → Option (List Char)
  | [] => some []
  | c :: cs =>
    if c = '\\' then
      match cs with
      | [] => none
      | 'u' :: h1 :: h2 :: h3 :: h4 :: cs3 =>
        match hexVal h1, hexVal h2, hexVal h3, hexVal h4 with
        | some a, some b, some c2, some d2 =>
          (jsonUnescape cs3).map (List.cons (Char.ofNat (((a * 16 + b) * 16 + c2) * 16 + d2)))
        | _, _, _, _ => none
      | d :: cs2 =>
        match escDecode d with
        | some e => (jsonUnescape cs2).map (List.cons e)
        | none => none
    else if c = '"' then none
    else if c.toNat < 32 then none
    else (jsonUnescape cs).map (List.cons c)

/-- Spec-side predicate (section 4.2): the number of blank-separated words
of a string. -/
def wordCountAux : List Char → Bool → Nat
  | [], _ => 0
  | c :: cs, inWord =>
    if c = ' ' then wordCountAux cs false
    else (if inWord then 0 else 1) + wordCountAux cs true

/-- Spec-side predicate: word count of a string. -/
def wordCount (s : String) : Nat :=
  wordCountAux s.toList false

/-- Spec-side predicate (section 4.2): a title of 3 to 8 words and fewer
than 60 characters. -/
def titleWithinSpec (s : String) : Prop :=
  3 ≤ wordCount s ∧ wordCount s ≤ 8 ∧ s.length < 60

/-- The four enumerated status values of the data model. -/
def validStatus (s : ReadingStatus) : Prop :=
  s = Unread ∨ s = ToBeRead ∨ s = Halfway ∨ s = Rd

/-- An attempt of the retry loop that yields no usable title: network
error, read error, parse error, or empty extracted content. -/
def attemptFailed (a : Attempt) : Prop :=
  a = .netErr ∨ a = .readErr ∨ a = .parseErr ∨ a = .ok ""

/-- A run of the title generator in which every avenue fails: either no
endpoint is reachable, or every attempt of the loop fails. -/
def titleGenFailure (env : LlamaEnv) : Prop :=
  env.available = false ∨ ∀ i < maxRetries, attemptFailed (env.att i)

/-- States of the store reachable through the create and delete handlers
from an empty table. -/
inductive Reachable : Store → Prop
  | init : Reachable { rows := [], nextId := 1 }
  | add (st : Store) (env : LlamaEnv) (form : String → String) (d t : String)
      (h : Reachable st) : Reachable (AddReading st env form d t).2
  | del (st : Store) (id : Nat) (h : Reachable st) :
      Reachable (DeleteReading st id).2

/-- A sample environment in which no endpoint is reachable. -/
def sampleEnv : LlamaEnv :=
  { available := false, att := fun _ => .netErr }

/-- A sample environment whose first two attempts fail on the network and
whose third parses to a non-empty title. -/
def sampleRetryEnv : LlamaEnv :=
  { available := true, att := fun i => if i < 2 then .netErr else .ok "Go Documentation Overview" }

/-- A sample create form carrying a url and a caller-supplied status. -/
def sampleForm : String → String :=
  fun k => if k = "url" then "https://go.dev/doc" else if k = "status" then "read" else ""

/-- A sample row as stored by the create handler. -/
def sampleRow1 : Reading :=
  Reading.mk 1 "https://go.dev/doc" "Go Documentation" "docs" "go.dev" "article"
    (some Unread) "2024-01-01" "00:00:00"

/-- A second sample row with a different status. -/
def sampleRow2 : Reading :=
  Reading.mk 2 "https://github.com/ismi-abbas/reading-list" "Reading List Project" ""
    "GitHub" "article" (some Rd) "2024-01-01" "00:00:01"

/-- A sample store holding the two sample rows. -/
def sampleStore : Store :=
  { rows := [sampleRow1, sampleRow2], nextId := 3 }

/-- A 65-character single-word string, used to exercise the title bound. -/
def longContent : String :=
  "xxxxxxxxxxxxxxxxxxxxxxxxxxxxxxxxxxxxxxxxxxxxxxxxxxxxxxxxxxxxxxxxx"

/-- An environment whose endpoint answers with the 65-character word. -/
def envLongTitle : LlamaEnv :=
  { available := true, att := fun _ => .ok longContent }

/-- The store reached by one create request from an empty table. -/
def sampleCreatedStore : Store :=
  (AddReading { rows := [], nextId := 1 } sampleEnv sampleForm "2024-01-01" "00:00:00").2

/-- The row that create request inserts. -/
def sampleCreatedRow : Reading :=
  Reading.mk 1 "https://go.dev/doc" "" "" "" "" (some Unread) "2024-01-01" "00:00:00"

/-! Helper lemmas about the retry loop. -/

lemma runLoop_sleeps_two (l : List Attempt) : ∀ d ∈ (runLoop l).sleeps, d = 2 := by
  induction l with
  | nil => intro d hd; simp [runLoop] at hd
  | cons a rest ih =>
    intro d hd
    cases a with
    | netErr =>
      by_cases hrest : rest.isEmpty
      · simp [runLoop, hrest] at hd
      · simp [runLoop, hrest] at hd
        rcases hd with h | h
        · exact h
        · exact ih d h
    | readErr => simp [runLoop] at hd
    | parseErr => simp [runLoop] at hd
    | ok c =>
      by_cases hc : c = ""
      · subst hc
        by_cases hrest : rest.isEmpty
        · simp [runLoop, hrest] at hd
        · simp [runLoop, hrest] at hd
          rcases hd with h | h
          · exact h
          · exact ih d h
      · simp [runLoop, hc] at hd

lemma runLoop_attempts_le (l : List Attempt) : (runLoop l).attemptsMade ≤ l.length := by
  induction l with
  | nil => simp [runLoop]
  | cons a rest ih =>
    cases a with
    | netErr =>
      by_cases hrest : rest.isEmpty
      · simp [runLoop, hrest]
      · simp [runLoop, hrest]
        omega
    | readErr => simp [runLoop]
    | parseErr => simp [runLoop]
    | ok c =>
      by_cases hc : c = ""
      · subst hc
        by_cases hrest : rest.isEmpty
        · simp [runLoop, hrest]
        · simp [runLoop, hrest]
          omega
      · simp [runLoop, hc]

lemma runLoop_sleeps_length (l : List Attempt) :
    (runLoop l).sleeps.length ≤ l.length - 1 := by
  induction l with
  | nil => simp [runLoop]
  | cons a rest ih =>
    have hpos : rest.isEmpty = false → 1 ≤ rest.length := by
      intro h
      have := List.isEmpty_eq_false.mp h
      have := List.length_pos.mpr this
      omega
    cases a with
    | netErr =>
      by_cases hrest : rest.isEmpty
      · simp [runLoop, hrest]
      · have h1 := hpos (by simpa using hrest)
        simp [runLoop, hrest]
        omega
    | readErr => simp [runLoop]
    | parseErr => simp [runLoop]
    | ok c =>
      by_cases hc : c = ""
      · subst hc
        by_cases hrest : rest.isEmpty
        · simp [runLoop, hrest]
        · have h1 := hpos (by simpa using hrest)
          simp [runLoop, hrest]
          omega
      · simp [runLoop, hc]

lemma runLoop_result_empty (l : List Attempt) (h : ∀ a ∈ l, attemptFailed a) :
    (runLoop l).result = "" := by
  induction l with
  | nil => simp [runLoop]
  | cons a rest ih =>
    have ha := h a (List.mem_cons_self _ _)
    have hrest' : ∀ a ∈ rest, attemptFailed a := fun x hx => h x (List.mem_cons_of_mem _ hx)
    have ihr := ih hrest'
    rcases ha with ha | ha | ha | ha
    · subst ha
      by_cases hrest : rest.isEmpty
      · simp [runLoop, hrest]
      · simp [runLoop, hrest, ihr]
    · subst ha; simp [runLoop]
    · subst ha; simp [runLoop]
    · subst ha
      by_cases hrest : rest.isEmpty
      · simp [runLoop, hrest]
      · simp [runLoop, hrest, ihr]

lemma runLoop_result_cases (l : List Attempt) :
    (runLoop l).result = "" ∨
      ∃ c, Attempt.ok c ∈ l ∧ c ≠ "" ∧ (runLoop l).result = c := by
  induction l with
  | nil => left; simp [runLoop]
  | cons a rest ih =>
    cases a with
    | netErr =>
      by_cases hrest : rest.isEmpty
      · left; simp [runLoop, hrest]
      · rcases ih with h | ⟨c, hc1, hc2, hc3⟩
        · left; simp [runLoop, hrest, h]
        · right
          exact ⟨c, List.mem_cons_of_mem _ hc1, hc2, by simp [runLoop, hrest, hc3]⟩
    | readErr => left; simp [runLoop]
    | parseErr => left; simp [runLoop]
    | ok c =>
      by_cases hc : c = ""
      · subst hc
        by_cases hrest : rest.isEmpty
        · left; simp [runLoop, hrest]
        · rcases ih with h | ⟨c2, hc1, hc2, hc3⟩
          · left; simp [runLoop, hrest, h]
          · right
            exact ⟨c2, List.mem_cons_of_mem _ hc1, hc2, by simp [runLoop, hrest, hc3]⟩
      · right
        exact ⟨c, List.mem_cons_self _ _, hc, by simp [runLoop, hc]⟩

lemma attemptOutcomes_eq (env : LlamaEnv) :
    attemptOutcomes env = [env.att 0, env.att 1, env.att 2] := rfl

lemma titleGenFailure_empty (env : LlamaEnv) (content : String)
    (hfail : titleGenFailure env) :
    generateTitleWithLlama3 env content = "" := by
  rcases hfail with h | h
  · simp [generateTitleWithLlama3, h]
  · have hall : ∀ a ∈ attemptOutcomes env, attemptFailed a := by
      intro a ha
      rw [attemptOutcomes] at ha
      rcases List.mem_map.mp ha with ⟨i, hi, rfl⟩
      exact h i (List.mem_range.mp hi)
    cases hava : env.available with
    | false => simp [generateTitleWithLlama3, hava]
    | true => simp [generateTitleWithLlama3, hava, runLoop_result_empty _ hall]

/-! Helper lemmas about the payload escaping and JSON string decoding. -/

lemma replaceAllChar_append (p : Char) (r l1 l2 : List Char) :
    replaceAllChar p r (l1 ++ l2) = replaceAllChar p r l1 ++ replaceAllChar p r l2 := by
  induction l1 with
  | nil => simp [replaceAllChar]
  | cons c cs ih => by_cases h : c = p <;> simp [replaceAllChar, h, ih]

lemma escapeContent_cons (c : Char) (cs : List Char) :
    escapeContent (c :: cs) = escChar c ++ escapeContent cs := by
  by_cases h1 : c = '\\'
  · subst h1; simp [escapeContent, escChar, replaceAllChar, replaceAllChar_append]
  by_cases h2 : c = '"'
  · subst h2; simp [escapeContent, escChar, replaceAllChar, replaceAllChar_append, h1]
  by_cases h3 : c = '\n'
  · subst h3; simp [escapeContent, escChar, replaceAllChar, replaceAllChar_append, h1, h2]
  by_cases h4 : c = '\r'
  · subst h4
    simp [escapeContent, escChar, replaceAllChar, replaceAllChar_append, h1, h2, h3]
  by_cases h5 : c = '\t'
  · subst h5
    simp [escapeContent, escChar, replaceAllChar, replaceAllChar_append, h1, h2, h3, h4]
  simp [escapeContent, escChar, replaceAllChar, h1, h2, h3, h4, h5]

lemma escapeContent_eq_escapeList (l : List Char) : escapeContent l = escapeList l := by
  induction l with
  | nil => rfl
  | cons c cs ih => rw [escapeContent_cons, escapeList, ih]

lemma ju_esc_backslash (l : List Char) :
    jsonUnescape ('\\' :: '\\' :: l) = (jsonUnescape l).map (List.cons '\\') := rfl

lemma ju_esc_quote (l : List Char) :
    jsonUnescape ('\\' :: '"' :: l) = (jsonUnescape l).map (List.cons '"') := rfl

lemma ju_esc_n (l : List Char) :
    jsonUnescape ('\\' :: 'n' :: l) = (jsonUnescape l).map (List.cons '\n') := rfl

lemma ju_esc_r (l : List Char) :
    jsonUnescape ('\\' :: 'r' :: l) = (jsonUnescape l).map (List.cons '\r') := rfl

lemma ju_esc_t (l : List Char) :
    jsonUnescape ('\\' :: 't' :: l) = (jsonUnescape l).map (List.cons '\t') := rfl

lemma ju_ord (c : Char) (l : List Char) (h1 : c ≠ '\\') (h2 : c ≠ '"')
    (h3 : ¬ c.toNat < 32) :
    jsonUnescape (c :: l) = (jsonUnescape l).map (List.cons c) := by
  rw [jsonUnescape.eq_def]
  simp [h1, h2, h3]

lemma ju_escapeList (l : List Char)
    (h : ∀ c ∈ l, 32 ≤ c.toNat ∨ c = '\n' ∨ c = '\r' ∨ c = '\t') :
    jsonUnescape (escapeList l) = some l := by
  induction l with
  | nil => rfl
  | cons c cs ih =>
    have hc := h c (List.mem_cons_self _ _)
    have ihr := ih (fun x hx => h x (List.mem_cons_of_mem _ hx))
    rw [escapeList]
    by_cases h1 : c = '\\'
    · subst h1; simp [escChar, ju_esc_backslash, ihr]
    by_cases h2 : c = '"'
    · subst h2; simp [escChar, h1, ju_esc_quote, ihr]
    by_cases h3 : c = '\n'
    · subst h3; simp [escChar, h1, h2, ju_esc_n, ihr]
    by_cases h4 : c = '\r'
    · subst h4; simp [escChar, h1, h2, h3, ju_esc_r, ihr]
    by_cases h5 : c = '\t'
    · subst h5; simp [escChar, h1, h2, h3, h4, ju_esc_t, ihr]
    have h32 : ¬ c.toNat < 32 := by
      rcases hc with hc | hc | hc | hc
      · omega
      all_goals exact absurd hc (by assumption)
    simp [escChar, h1, h2, h3, h4, h5, ju_ord c _ h1 h2 h32, ihr]

/-! Helper lemma about reachable store states. -/

lemma reachable_rows_unread (st : Store) (h : Reachable st) :
    ∀ r ∈ st.rows, r.status = some Unread := by
  induction h with
  | init => intro r hr; simp at hr
  | add st env form d t h ih =>
    intro r hr
    by_cases hu : form "url" = ""
    · simp [AddReading, hu] at hr
      exact ih r hr
    · simp [AddReading, insertReading, hu] at hr
      rcases hr with hr | hr
      · exact ih r hr
      · rw [hr]
  | del st id h ih =>
    intro r hr
    simp [DeleteReading] at hr
    exact ih r hr.1

/-! The claims. -/

/-- Claim C1: for every create request with a non-empty url, the new entry
is persisted with status forced to unread regardless of any caller-supplied
status value in the form, and a subsequent ListAll includes an entry with
that url, a freshly assigned id distinct from every id already in the
store, and status unread; the id bound invariant is preserved. -/
theorem AddReading_persists_unread (st : Store) (env : LlamaEnv)
    (form : String → String) (d t s2 : String)
    (hurl : form "url" ≠ "") (hids : ∀ r ∈ st.rows, r.id < st.nextId) :
    (AddReading st env form d t).1 = 200 ∧
    (∃ r, GetReadings (AddReading st env form d t).2 = GetReadings st ++ [r] ∧
      r.url = form "url" ∧ r.status = some Unread ∧ r.id = st.nextId ∧
      ∀ r2 ∈ GetReadings st, r2.id ≠ r.id) ∧
    (∀ r ∈ (AddReading st env form d t).2.rows,
      r.id < (AddReading st env form d t).2.nextId) ∧
    AddReading st env (fun k => if k = "status" then s2 else form k) d t =
      AddReading st env form d t := by
  refine ⟨by simp [AddReading, hurl], ?_, ?_, ?_⟩
  · refine ⟨Reading.mk st.nextId (form "url")
      (generateTitleWithLlama3 env (form "description")) (form "description")
      (form "source") (form "type") (some Unread) d t, ?_, rfl, rfl, rfl, ?_⟩
    · simp [AddReading, hurl, insertReading, GetReadings]
    · intro r2 hr2
      exact Nat.ne_of_lt (hids r2 hr2)
  · intro r hr
    simp [AddReading, hurl, insertReading] at hr ⊢
    rcases hr with hr | hr
    · have := hids r hr
      omega
    · rw [hr]
      simp
  · rfl

/-- Claim C1 witness: a concrete create request against the sample store. -/
theorem AddReading_persists_unread_witness :
    (AddReading sampleStore sampleEnv sampleForm "2024-01-02" "10:00:00").1 = 200 ∧
    (∃ r, GetReadings (AddReading sampleStore sampleEnv sampleForm "2024-01-02" "10:00:00").2 =
        GetReadings sampleStore ++ [r] ∧
      r.url = sampleForm "url" ∧ r.status = some Unread ∧ r.id = sampleStore.nextId ∧
      ∀ r2 ∈ GetReadings sampleStore, r2.id ≠ r.id) ∧
    (∀ r ∈ (AddReading sampleStore sampleEnv sampleForm "2024-01-02" "10:00:00").2.rows,
      r.id < (AddReading sampleStore sampleEnv sampleForm "2024-01-02" "10:00:00").2.nextId) ∧
    AddReading sampleStore sampleEnv
        (fun k => if k = "status" then "halfway" else sampleForm k) "2024-01-02" "10:00:00" =
      AddReading sampleStore sampleEnv sampleForm "2024-01-02" "10:00:00" :=
  AddReading_persists_unread sampleStore sampleEnv sampleForm "2024-01-02" "10:00:00"
    "halfway" (by decide) (by decide)

/-- Claim C2: a create request with an empty url is rejected with HTTP 400
and the store is unchanged. -/
theorem AddReading_empty_url_rejected (st : Store) (env : LlamaEnv)
    (form : String → String) (d t : String) (h : form "url" = "") :
    (AddReading st env form d t).1 = 400 ∧
    (AddReading st env form d t).2 = st ∧
    GetReadings (AddReading st env form d t).2 = GetReadings st := by
  simp [AddReading, h]

/-- Claim C2 witness: a concrete empty-url request against the sample
store. -/
theorem AddReading_empty_url_rejected_witness :
    (AddReading sampleStore sampleEnv (fun _ => "") "d" "t").1 = 400 ∧
    (AddReading sampleStore sampleEnv (fun _ => "") "d" "t").2 = sampleStore ∧
    GetReadings (AddReading sampleStore sampleEnv (fun _ => "") "d" "t").2 =
      GetReadings sampleStore :=
  AddReading_empty_url_rejected sampleStore sampleEnv (fun _ => "") "d" "t" rfl

/-- Claim C3: whenever the title generation fails in any of its modes, the
generator returns the empty string rather than an error, and the create
flow still succeeds, inserting the entry with the empty string as title. -/
theorem titleGen_failure_degrades (st : Store) (env : LlamaEnv)
    (form : String → String) (d t : String)
    (hfail : titleGenFailure env) (hurl : form "url" ≠ "") :
    generateTitleWithLlama3 env (form "description") = "" ∧
    (AddReading st env form d t).1 = 200 ∧
    ∃ r, GetReadings (AddReading st env form d t).2 = GetReadings st ++ [r] ∧
      r.title = "" ∧ r.url = form "url" ∧ r.status = some Unread := by
  have hempty := titleGenFailure_empty env (form "description") hfail
  refine ⟨hempty, by simp [AddReading, hurl], ?_⟩
  refine ⟨Reading.mk st.nextId (form "url") "" (form "description")
    (form "source") (form "type") (some Unread) d t, ?_, rfl, rfl, rfl⟩
  simp [AddReading, hurl, insertReading, GetReadings, hempty]

/-- Claim C3 witness: no endpoint reachable, concrete form and store. -/
theorem titleGen_failure_degrades_witness :
    generateTitleWithLlama3 sampleEnv (sampleForm "description") = "" ∧
    (AddReading sampleStore sampleEnv sampleForm "d" "t").1 = 200 ∧
    ∃ r, GetReadings (AddReading sampleStore sampleEnv sampleForm "d" "t").2 =
        GetReadings sampleStore ++ [r] ∧
      r.title = "" ∧ r.url = sampleForm "url" ∧ r.status = some Unread :=
  titleGen_failure_degrades sampleStore sampleEnv sampleForm "d" "t"
    (Or.inl rfl) (by decide)

/-- Claim C4: the retry loop makes at most maxRetries attempts, every
sleep between failed attempts is exactly 2 seconds and there are at most
maxRetries minus one of them; when the first two attempts fail on the
network and the third parses to non-empty content, that content is
returned; when all attempts fail, the empty string is returned. -/
theorem titleGen_retry_spec (env : LlamaEnv) (c x : String) (hc : c ≠ "") :
    (runLoop (attemptOutcomes env)).attemptsMade ≤ maxRetries ∧
    (∀ d ∈ (runLoop (attemptOutcomes env)).sleeps, d = 2) ∧
    (runLoop (attemptOutcomes env)).sleeps.length ≤ maxRetries - 1 ∧
    (env.available = true → env.att 0 = .netErr → env.att 1 = .netErr →
      env.att 2 = .ok c → generateTitleWithLlama3 env x = c) ∧
    ((∀ i < maxRetries, attemptFailed (env.att i)) →
      generateTitleWithLlama3 env x = "") := by
  have hlen : (attemptOutcomes env).length = maxRetries := by
    simp [attemptOutcomes]
  refine ⟨?_, runLoop_sleeps_two _, ?_, ?_, ?_⟩
  · rw [← hlen]
    exact runLoop_attempts_le _
  · rw [← hlen]
    exact runLoop_sleeps_length _
  · intro hav h0 h1 h2
    simp [generateTitleWithLlama3, hav, attemptOutcomes_eq, h0, h1, h2, runLoop, hc]
  · intro hall
    exact titleGenFailure_empty env x (Or.inr hall)

/-- Claim C4 witness: two network failures then a successful non-empty
response. -/
theorem titleGen_retry_spec_witness :
    (runLoop (attemptOutcomes sampleRetryEnv)).attemptsMade ≤ maxRetries ∧
    (∀ d ∈ (runLoop (attemptOutcomes sampleRetryEnv)).sleeps, d = 2) ∧
    (runLoop (attemptOutcomes sampleRetryEnv)).sleeps.length ≤ maxRetries - 1 ∧
    (sampleRetryEnv.available = true → sampleRetryEnv.att 0 = .netErr →
      sampleRetryEnv.att 1 = .netErr →
      sampleRetryEnv.att 2 = .ok "Go Documentation Overview" →
      generateTitleWithLlama3 sampleRetryEnv "d" = "Go Documentation Overview") ∧
    ((∀ i < maxRetries, attemptFailed (sampleRetryEnv.att i)) →
      generateTitleWithLlama3 sampleRetryEnv "d" = "") :=
  titleGen_retry_spec sampleRetryEnv "Go Documentation Overview" "d" (by decide)

/-- Claim C5 counterexample: the two rows inserted by the initialization
seeding carry a NULL status, which differs from every one of the four
enumerated status values, so the claimed invariant fails on the state
reached right after boot on an empty table. -/
theorem initDb_seed_status_outside_enum :
    ((initDb { rows := [], nextId := 1 } "2024-01-01" "00:00:00").rows.map
      (fun r => r.status)) = [none, none] ∧
    (none : Option ReadingStatus) ≠ some Unread ∧
    (none : Option ReadingStatus) ≠ some ToBeRead ∧
    (none : Option ReadingStatus) ≠ some Halfway ∧
    (none : Option ReadingStatus) ≠ some Rd := by
  decide

/-- Claim C5 (amended): every entry created through the handlers has
status unread, one of the four enumerated values, in every store state
reachable through the create and delete handlers; rows inserted by the
initialization seeding are exempt, as they are stored with NULL status. -/
theorem reachable_status_enumerated (st : Store) (h : Reachable st) :
    ∀ r ∈ st.rows, r.status = some Unread ∧ ∃ s, r.status = some s ∧ validStatus s := by
  intro r hr
  have hu := reachable_rows_unread st h r hr
  exact ⟨hu, Unread, hu, Or.inl rfl⟩

/-- Claim C5 witness: the row created by one successful create from empty
has status unread, one of the enumerated values. -/
theorem reachable_status_enumerated_witness :
    sampleCreatedRow ∈ sampleCreatedStore.rows ∧
    sampleCreatedRow.status = some Unread ∧
    (∃ s, sampleCreatedRow.status = some s ∧ validStatus s) :=
  ⟨by decide,
    (reachable_status_enumerated sampleCreatedStore
      (Reachable.add _ sampleEnv sampleForm _ _ Reachable.init)
      sampleCreatedRow (by decide)).1,
    (reachable_status_enumerated sampleCreatedStore
      (Reachable.add _ sampleEnv sampleForm _ _ Reachable.init)
      sampleCreatedRow (by decide)).2⟩

/-- Claim C6: delete responds 200, the listing afterwards contains no
entry with the deleted id, every other entry is retained in its original
relative order, and deleting an id matching no entry leaves the store
unchanged. -/
theorem DeleteReading_spec (st : Store) (id : Nat) :
    (DeleteReading st id).1 = 200 ∧
    (∀ r ∈ GetReadings (DeleteReading st id).2, r.id ≠ id) ∧
    (∀ r ∈ GetReadings st, r.id ≠ id → r ∈ GetReadings (DeleteReading st id).2) ∧
    (GetReadings (DeleteReading st id).2).Sublist (GetReadings st) ∧
    ((∀ r ∈ GetReadings st, r.id ≠ id) → (DeleteReading st id).2 = st) := by
  refine ⟨rfl, ?_, ?_, List.filter_sublist st.rows, ?_⟩
  · intro r hr
    simp [DeleteReading, GetReadings] at hr
    exact hr.2
  · intro r hr hne
    simp [DeleteReading, GetReadings]
    exact ⟨hr, hne⟩
  · intro hall
    have heq : st.rows.filter (fun r => decide (r.id ≠ id)) = st.rows :=
      List.filter_eq_self.mpr fun a ha => decide_eq_true (hall a ha)
    show ({ st with rows := st.rows.filter (fun r => decide (r.id ≠ id)) } : Store) = st
    rw [heq]

/-- Claim C6 witness: deleting the first sample row. -/
theorem DeleteReading_spec_witness :
    (DeleteReading sampleStore 1).1 = 200 ∧
    (∀ r ∈ GetReadings (DeleteReading sampleStore 1).2, r.id ≠ 1) ∧
    (∀ r ∈ GetReadings sampleStore, r.id ≠ 1 →
      r ∈ GetReadings (DeleteReading sampleStore 1).2) ∧
    (GetReadings (DeleteReading sampleStore 1).2).Sublist (GetReadings sampleStore) ∧
    ((∀ r ∈ GetReadings sampleStore, r.id ≠ 1) → (DeleteReading sampleStore 1).2 = sampleStore) :=
  DeleteReading_spec sampleStore 1

/-- Claim C7: the status filter returns exactly the entries whose status
equals the given string, as a sublist of the full listing hence in the
same relative order, and a status matching no entry yields the empty
list. -/
theorem GetReadingsByStatus_spec (st : Store) (s : String) :
    (∀ r ∈ GetReadingsByStatus st s, r.status = some s) ∧
    (∀ r ∈ GetReadings st, r.status = some s → r ∈ GetReadingsByStatus st s) ∧
    (GetReadingsByStatus st s).Sublist (GetReadings st) ∧
    ((∀ r ∈ GetReadings st, r.status ≠ some s) → GetReadingsByStatus st s = []) := by
  refine ⟨?_, ?_, List.filter_sublist st.rows, ?_⟩
  · intro r hr
    simp [GetReadingsByStatus] at hr
    exact hr.2
  · intro r hr h
    simp [GetReadingsByStatus]
    exact ⟨hr, h⟩
  · intro hall
    refine List.filter_eq_nil_iff.mpr ?_
    intro a ha
    simpa using hall a ha

/-- Claim C7 witness: filtering the sample store by a status outside the
enumeration. -/
theorem GetReadingsByStatus_spec_witness :
    (∀ r ∈ GetReadingsByStatus sampleStore "bogus", r.status = some "bogus") ∧
    (∀ r ∈ GetReadings sampleStore, r.status = some "bogus" →
      r ∈ GetReadingsByStatus sampleStore "bogus") ∧
    (GetReadingsByStatus sampleStore "bogus").Sublist (GetReadings sampleStore) ∧
    ((∀ r ∈ GetReadings sampleStore, r.status ≠ some "bogus") →
      GetReadingsByStatus sampleStore "bogus" = []) :=
  GetReadingsByStatus_spec sampleStore "bogus"

/-- Claim C8 counterexample: the generator returns the endpoint content
verbatim, so a 65-character single-word response is returned as the title
even though it violates the 3 to 8 word, under 60 character bound. -/
theorem generateTitle_bound_counterexample :
    generateTitleWithLlama3 envLongTitle "description" = longContent ∧
    longContent ≠ "" ∧ ¬ titleWithinSpec longContent := by
  refine ⟨by decide, by decide, ?_⟩
  rw [titleWithinSpec]
  decide

/-- Claim C8 (amended): the generator returns either the empty string or,
verbatim, the non-empty message content extracted from one of the
attempts; the word and character bounds are only requested through the
system prompt, never enforced by the code. -/
theorem generateTitle_returns_content_verbatim (env : LlamaEnv) (x : String) :
    generateTitleWithLlama3 env x = "" ∨
    ∃ c, Attempt.ok c ∈ attemptOutcomes env ∧ c ≠ "" ∧
      generateTitleWithLlama3 env x = c := by
  cases hav : env.available with
  | false =>
    left
    simp [generateTitleWithLlama3, hav]
  | true =>
    rcases runLoop_result_cases (attemptOutcomes env) with h | ⟨c, h1, h2, h3⟩
    · left
      simp [generateTitleWithLlama3, hav, h]
    · right
      exact ⟨c, h1, h2, by simp [generateTitleWithLlama3, hav, h3]⟩

/-- Claim C9 counterexample: a description consisting of the single
backspace character (0x08) passes through the escaping unchanged, and the
resulting JSON string body is malformed, so it does not decode back to the
original description. -/
theorem escapeContent_not_json_safe :
    jsonUnescape (escapeContent [Char.ofNat 8]) = none ∧
    jsonUnescape (escapeContent [Char.ofNat 8]) ≠ some [Char.ofNat 8] := by
  decide

/-- Claim C9 (amended): for every description whose characters are either
printable (codepoint at least 0x20) or one of newline, carriage return and
tab, the escaped content forms a well-formed JSON string body that decodes
back to the original description; other control characters are passed
through unescaped and make the payload malformed. -/
theorem escapeContent_roundtrip (content : List Char)
    (h : ∀ c ∈ content, 32 ≤ c.toNat ∨ c = '\n' ∨ c = '\r' ∨ c = '\t') :
    jsonUnescape (escapeContent content) = some content := by
  rw [escapeContent_eq_escapeList]
  exact ju_escapeList content h

/-- Claim C9 witness: a description exercising quote, backslash and
newline. -/
theorem escapeContent_roundtrip_witness :
    jsonUnescape (escapeContent ['a', '"', '\\', '\n', '\t', '\r', 'z']) =
      some ['a', '"', '\\', '\n', '\t', '\r', 'z'] :=
  escapeContent_roundtrip ['a', '"', '\\', '\n', '\t', '\r', 'z'] (by decide)

/-- Claim C10: the list endpoint treats the status query value all and the
empty value identically, both returning the full unfiltered listing, and
on a non-empty store the all value never yields an empty sequence. -/
theorem FetchReadings_all_spec (st : Store) :
    FetchReadings st "all" = GetReadings st ∧
    FetchReadings st "" = GetReadings st ∧
    FetchReadings st "all" = FetchReadings st "" ∧
    (GetReadings st ≠ [] → FetchReadings st "all" ≠ []) := by
  have h1 : FetchReadings st "all" = GetReadings st := by simp [FetchReadings]
  have h2 : FetchReadings st "" = GetReadings st := by simp [FetchReadings]
  exact ⟨h1, h2, h1.trans h2.symm, fun hne => h1 ▸ hne⟩

/-- Claim C10 witness: the sample store. -/
theorem FetchReadings_all_spec_witness :
    FetchReadings sampleStore "all" = GetReadings sampleStore ∧
    FetchReadings sampleStore "" = GetReadings sampleStore ∧
    FetchReadings sampleStore "all" = FetchReadings sampleStore "" ∧
    (GetReadings sampleStore ≠ [] → FetchReadings sampleStore "all" ≠ []) :=
  FetchReadings_all_spec sampleStore

end ReadingList
